import Mathlib

/-!
Verification development for the rofi view engine (`source/view.c`):
the parallel filter pass (`rofi_view_refilter`, `filter_elements`), the
sort step (`lev_sort`), and the selection state machine
(`rofi_view_trigger_action`, `rofi_view_nav_row_tab`,
`rofi_view_get_next_position`).

Candidate providers (`mode_token_match`, `mode_get_completion`,
`levenshtein`, `rofi_scorer_fuzzy_evaluate`) are external to view.c and
enter the model as abstract per-candidate functions.  Machine `unsigned
int` values are modelled as `Nat` (no quantity in scope approaches
`2^32`); the sentinel `UINT32_MAX` is kept explicit.
-/

namespace Rofi

/-- Configuration flags read by the filtering engine (the fields of the
global `config` that view.c consults).  `matching_fuzzy` stands for
`config.matching_method == MM_FUZZY`. -/
structure Config where
  sort : Bool
  levenshtein_sort : Bool
  matching_fuzzy : Bool
  auto_select : Bool
  case_sensitive : Bool
  deriving DecidableEq

/-- The `UINT32_MAX` sentinel stored in `selected_line` to mean "no
candidate selected". -/
def UINT32_MAX : Nat := 4294967295

/-- Number of worker chunks of one pass:
`unsigned int nt = MAX ( 1, state->num_lines / 500 )` (view.c:740). -/
def nt (N : Nat) : Nat := max 1 (N / 500)

/-- Chunk height:
`unsigned int steps = ( state->num_lines + nt ) / nt` (view.c:747). -/
def steps (N : Nat) : Nat := (N + nt N) / nt N

/-- Candidate indices handed to worker `i`: its `filter_elements` loop runs
over `[states[i].start, states[i].stop)` with `start = i * steps` and
`stop = MIN ( state->num_lines, ( i + 1 ) * steps )` (view.c:750-751,
view.c:450). -/
def chunk (N i : Nat) : List Nat :=
  List.range' (i * steps N) (min N ((i + 1) * steps N) - i * steps N)

/-- All chunks of one pass in dispatch order (view.c:748-762). -/
def chunks (N : Nat) : List (List Nat) := (List.range (nt N)).map (chunk N)

/-- One worker body `filter_elements` (view.c:448-470): for each candidate
index `i` in `[start, stop)` with `mode_token_match` true it writes `i` to
`line_map[start + count]` and bumps its private `count`; the region
`line_map[start .. start+count)` therefore holds exactly the surviving
indices of the chunk in index order, modelled as a list.  `tokenMatch i`
abstracts `mode_token_match ( t->state->sw, t->state->tokens, i )`. -/
def filter_elements (tokenMatch : Nat → Bool) (start stop : Nat) : List Nat :=
  (List.range' start (stop - start)).filter tokenMatch

/-- The match list produced by worker `i` of one pass. -/
def chunkMatches (tokenMatch : Nat → Bool) (N i : Nat) : List Nat :=
  filter_elements tokenMatch (i * steps N) (min N ((i + 1) * steps N))

/-- The compacted mapping after the `memmove` merge loop (view.c:775-780):
chunk `i`'s matches sit at `line_map[start_i .. start_i + count_i)` and are
moved down to offset `j = count_0 + ... + count_(i-1)`; since
`j <= start_i` the destination never overruns a later chunk's region, so
the first `filtered_lines` slots end up holding the concatenation of the
per-chunk match lists in chunk order. -/
def unsortedMapping (tokenMatch : Nat → Bool) (N : Nat) : List Nat :=
  ((List.range (nt N)).map (chunkMatches tokenMatch N)).flatten

/-- The `g_qsort_with_data` comparator `lev_sort` (view.c:130-137): it
returns `distances[*a] - distances[*b]`, so candidate `a` sorts no later
than `b` exactly when that difference is non-positive — ascending stored
distance, in both scoring modes. -/
def lev_sort (distances : Nat → Int) (a b : Nat) : Bool :=
  decide (distances a - distances b ≤ 0)

/-- The score a worker writes for a matched candidate (view.c:459-464):
the Levenshtein distance unless fuzzy matching is configured without
`levenshtein_sort`, in which case the fuzzy score.  `lev i` abstracts
`levenshtein ( pattern, plen, completion(i), slen )` and `fuz i` abstracts
`rofi_scorer_fuzzy_evaluate ( pattern, plen, completion(i), slen )`; both
live outside view.c (per spec section 4.3 the fuzzy score is
higher-is-better, the distance lower-is-better). -/
def passScore (cfg : Config) (lev fuz : Nat → Int) (i : Nat) : Int :=
  if cfg.levenshtein_sort || !cfg.matching_fuzzy then lev i else fuz i

/-- The distance table after the workers of one pass complete: with a
non-empty query, entry `i` is overwritten with the fresh score exactly when
candidate `i` matched and `config.sort` is set (view.c:453-466); every
other entry keeps its previous contents.  An empty query runs no workers
at all (view.c:789-794). -/
def distAfter (cfg : Config) (tokenMatch : Nat → Bool) (lev fuz : Nat → Int)
    (queryEmpty : Bool) (N : Nat) (dist0 : Nat → Int) : Nat → Int :=
  if queryEmpty then dist0
  else fun i =>
    if i < N ∧ tokenMatch i = true ∧ cfg.sort = true then passScore cfg lev fuz i
    else dist0 i

/-- The mapping produced by one filter pass of `rofi_view_refilter`
(view.c:718-794): an empty query yields the identity mapping
(view.c:789-793); otherwise the compacted chunk results, sorted with
`lev_sort` keyed by the distance table when `config.sort` is set
(view.c:781-783).  `g_qsort_with_data` is GLib's merge sort (stable),
modelled by `List.mergeSort`. -/
def refilterMapping (cfg : Config) (tokenMatch : Nat → Bool) (dist : Nat → Int)
    (queryEmpty : Bool) (N : Nat) : List Nat :=
  if queryEmpty then List.range N
  else if cfg.sort then (unsortedMapping tokenMatch N).mergeSort (lev_sort dist)
  else unsortedMapping tokenMatch N

/-- The subset of `KeyBindingAction` (keyb.h, external to view.c) covered
by the model; `PASTE_PRIMARY` is the first (numerically zero) enum value. -/
inductive KeyBindingAction
  | PASTE_PRIMARY
  | ACCEPT_ENTRY
  | DELETE_ENTRY
  | ROW_TAB
  | ROW_UP
  | ROW_DOWN
  | CANCEL
  deriving DecidableEq

/-- The `MenuReturn` dispositions (rofi-types.h, external to view.c) that
the modelled actions produce. -/
inductive MenuReturn
  | MENU_OK
  | MENU_CANCEL
  | MENU_NEXT
  | MENU_PREVIOUS
  | MENU_CUSTOM_INPUT
  | MENU_ENTRY_DELETE
  | MENU_QUICK_SWITCH (n : Nat)
  deriving DecidableEq

/-- The fields of `RofiViewState` (view-internal.h) that the filter and
selection logic reads or writes.  `line_map` and `distance` are the two
`g_malloc0_n`-allocated arrays modelled as total functions on indices (so
reads past `filtered_lines` are observable, as in the C); `selected` is
the listview cursor returned by `listview_get_selected`; `selected_line`
uses the sentinel `UINT32_MAX` for "no candidate". -/
structure RofiViewState where
  num_lines : Nat
  filtered_lines : Nat
  line_map : Nat → Nat
  distance : Nat → Int
  selected : Nat
  selected_line : Nat
  retv : MenuReturn
  quit : Bool
  prev_action : KeyBindingAction

/-- Modelled from the spec: `listview_nav_down` (listview.c is not part of
this source).  Spec section 4.6: the delta is applied to the cursor and
clamped, not wrapped, to the valid range; no-op on an empty result set. -/
def listview_nav_down (s : RofiViewState) : RofiViewState :=
  if s.filtered_lines = 0 then s
  else { s with selected := min (s.selected + 1) (s.filtered_lines - 1) }

/-- Modelled from the spec: `listview_nav_up` (listview.c is not part of
this source).  Spec section 4.6: clamped cursor decrement; no-op on an
empty result set. -/
def listview_nav_up (s : RofiViewState) : RofiViewState :=
  if s.filtered_lines = 0 then s
  else { s with selected := s.selected - 1 }

/-- Modelled from the spec: `listview_set_num_elements` (listview.c is not
part of this source) re-clamps the listview cursor into the new result
range, per the spec section 3 Selection Cursor invariant
`cursor ∈ [0, filtered_count)`. -/
def listview_set_num_elements (sel n : Nat) : Nat :=
  if sel < n then sel else n - 1

/-- Tab handling `rofi_view_nav_row_tab` (view.c:545-564).  Note the early
return of the single-result branch skips the trailing
`state->prev_action = ROW_TAB`, and that no other action ever writes
`prev_action`. -/
def rofi_view_nav_row_tab (s : RofiViewState) : RofiViewState :=
  if s.filtered_lines = 1 then
    { s with retv := .MENU_OK, selected_line := s.line_map s.selected, quit := true }
  else if s.filtered_lines = 0 ∧ s.prev_action = .ROW_TAB then
    { s with retv := .MENU_NEXT, selected_line := 0, quit := true, prev_action := .ROW_TAB }
  else
    { listview_nav_down s with prev_action := .ROW_TAB }

/-- The selection state machine `rofi_view_trigger_action`
(view.c:825-1029) restricted to the modelled actions; the second component
is the returned handled flag `ret`.  `ACCEPT_ENTRY` first stores the
sentinel and overwrites it when the cursor is valid (view.c:1006-1022);
`DELETE_ENTRY` rejects an out-of-range cursor with `ret = FALSE` and no
state write (view.c:862-874). -/
def rofi_view_trigger_action (s : RofiViewState) (action : KeyBindingAction) :
    RofiViewState × Bool :=
  match action with
  | .ACCEPT_ENTRY =>
      if s.selected < s.filtered_lines then
        ({ s with selected_line := s.line_map s.selected, retv := .MENU_OK, quit := true }, true)
      else
        ({ s with selected_line := UINT32_MAX, retv := .MENU_CUSTOM_INPUT, quit := true }, true)
  | .DELETE_ENTRY =>
      if s.selected < s.filtered_lines then
        ({ s with selected_line := s.line_map s.selected, retv := .MENU_ENTRY_DELETE, quit := true }, true)
      else
        (s, false)
  | .ROW_TAB => (rofi_view_nav_row_tab s, true)
  | .ROW_UP => (listview_nav_up s, true)
  | .ROW_DOWN => (listview_nav_down s, true)
  | .CANCEL => ({ s with retv := .MENU_CANCEL, quit := true }, true)
  | .PASTE_PRIMARY => (s, true)

/-- `rofi_view_get_next_position` (view.c:383-391): reads
`line_map[selected + 1]` whenever `selected + 1 < num_lines`, with no
check against `filtered_lines`; otherwise returns the stored
`selected_line`. -/
def rofi_view_get_next_position (s : RofiViewState) : Nat :=
  if s.selected + 1 < s.num_lines then s.line_map (s.selected + 1)
  else s.selected_line

/-- The filtering part of one `rofi_view_refilter` call (view.c:718-795),
reload aside: recompute the mapping into the `line_map` prefix, update
`filtered_lines` and the distance table, and let
`listview_set_num_elements` re-clamp the cursor (view.c:795). -/
def refilterApply (cfg : Config) (tm : Nat → Bool) (lev fuz : Nat → Int)
    (queryEmpty : Bool) (s : RofiViewState) : RofiViewState :=
  { s with
    line_map := fun p =>
      if h : p < (refilterMapping cfg tm
          (distAfter cfg tm lev fuz queryEmpty s.num_lines s.distance)
          queryEmpty s.num_lines).length
      then (refilterMapping cfg tm
          (distAfter cfg tm lev fuz queryEmpty s.num_lines s.distance)
          queryEmpty s.num_lines).get ⟨p, h⟩
      else s.line_map p,
    distance := distAfter cfg tm lev fuz queryEmpty s.num_lines s.distance,
    filtered_lines := (refilterMapping cfg tm
        (distAfter cfg tm lev fuz queryEmpty s.num_lines s.distance)
        queryEmpty s.num_lines).length,
    selected := listview_set_num_elements s.selected
      (refilterMapping cfg tm
        (distAfter cfg tm lev fuz queryEmpty s.num_lines s.distance)
        queryEmpty s.num_lines).length }

/-- One full `rofi_view_refilter` call (view.c:718-811): the filter pass
followed by the auto-select check (view.c:797-801), which commits with
`MENU_OK` when auto-select is on, exactly one line survived, and the
candidate set has more than one entry. -/
def rofi_view_refilter (cfg : Config) (tm : Nat → Bool) (lev fuz : Nat → Int)
    (queryEmpty : Bool) (s : RofiViewState) : RofiViewState :=
  let s1 := refilterApply cfg tm lev fuz queryEmpty s
  if cfg.auto_select = true ∧ s1.filtered_lines = 1 ∧ 1 < s1.num_lines then
    { s1 with selected_line := s1.line_map s1.selected, retv := .MENU_OK, quit := true }
  else s1

/-- `_rofi_view_reload_row` (view.c:707-716): reallocates `line_map` and
`distance` with `g_malloc0_n`, i.e. zero-filled, at the provider's new
entry count. -/
def _rofi_view_reload_row (numEntries : Nat) (s : RofiViewState) : RofiViewState :=
  { s with
    num_lines := numEntries,
    line_map := fun _ => 0,
    distance := fun _ => 0 }

/-- Concrete all-flags-off configuration, for witness instantiations. -/
def cfgPlain : Config :=
  { sort := false, levenshtein_sort := false, matching_fuzzy := false,
    auto_select := false, case_sensitive := false }

/-- Concrete configuration with auto-select on, sorting off. -/
def cfgAuto : Config :=
  { cfgPlain with auto_select := true }

/-- Concrete configuration of the fuzzy-matching, sorting-enabled mode:
`config.sort` set, `config.levenshtein_sort` unset,
`config.matching_method == MM_FUZZY`. -/
def cfgFuzzySort : Config :=
  { sort := true, levenshtein_sort := false, matching_fuzzy := true,
    auto_select := false, case_sensitive := false }

/-- Concrete match predicate: even candidate indices match. -/
def tmEven : Nat → Bool := fun i => i % 2 == 0

/-- Concrete match predicate: every candidate matches. -/
def tmAll : Nat → Bool := fun _ => true

/-- Concrete match predicate: only candidate 1 matches. -/
def tmOnly1 : Nat → Bool := fun i => i == 1

/-- Concrete all-zero score table. -/
def distZero : Nat → Int := fun _ => 0

/-- A possible fuzzy-scorer output on two candidates: candidate 1 scores
strictly higher (better, per spec section 4.3) than candidate 0. -/
def fuzTwo : Nat → Int := fun i => if i = 0 then 1 else 2

/-- The distance table left by a sorting fuzzy pass over the two
candidates of `fuzTwo`, both matching. -/
def distFuzzyCex : Nat → Int :=
  distAfter cfgFuzzySort tmAll distZero fuzTwo false 2 distZero

/-- A baseline concrete view state: five candidates, empty filtered set,
cursor 0, no terminal outcome pending, `prev_action` at its
zero-initialized value. -/
def baseState : RofiViewState :=
  { num_lines := 5, filtered_lines := 0, line_map := fun _ => 0,
    distance := fun _ => 0, selected := 0, selected_line := UINT32_MAX,
    retv := .MENU_CANCEL, quit := false, prev_action := .PASTE_PRIMARY }

/-- A concrete state with exactly one filtered line and a distinguishable
mapping. -/
def stateOne : RofiViewState :=
  { baseState with filtered_lines := 1, line_map := fun i => 10 + i }

/-- A concrete state whose listview cursor sits past the filtered set. -/
def stateBig : RofiViewState :=
  { baseState with selected := 7 }

/-- A concrete three-candidate state, for the auto-select witness run. -/
def stateN3 : RofiViewState :=
  { baseState with num_lines := 3 }

/-- A concrete empty-result state whose `prev_action` already records a
Tab. -/
def stateTabPrev : RofiViewState :=
  { baseState with prev_action := .ROW_TAB }

theorem nt_pos (N : Nat) : 0 < nt N := le_max_left 1 _

theorem num_lt_nt_mul_steps (N : Nat) : N < nt N * steps N := by
  have hm : (N + nt N) % nt N < nt N := Nat.mod_lt _ (nt_pos N)
  have hd : nt N * ((N + nt N) / nt N) + (N + nt N) % nt N = N + nt N :=
    Nat.div_add_mod (N + nt N) (nt N)
  show N < nt N * ((N + nt N) / nt N)
  omega

theorem flatten_chunks_prefix (N : Nat) :
    ∀ k, ((List.range k).map (chunk N)).flatten
      = List.range' 0 (min N (k * steps N)) := by
  intro k
  induction k with
  | zero => simp
  | succ k ih =>
    rw [List.range_succ, List.map_append, List.flatten_append, ih]
    simp only [List.map_cons, List.map_nil, List.flatten_cons, List.flatten_nil,
      List.append_nil]
    have hmono : k * steps N ≤ (k + 1) * steps N :=
      Nat.mul_le_mul_right _ (Nat.le_succ k)
    rcases le_or_lt N (k * steps N) with h | h
    · have h0 : min N ((k + 1) * steps N) - k * steps N = 0 := by omega
      have h1 : min N (k * steps N) = N := by omega
      have h2 : min N ((k + 1) * steps N) = N := by omega
      unfold chunk
      rw [h0, h1, h2]
      simp
    · have h1 : min N (k * steps N) = k * steps N := by omega
      have h2 : k * steps N ≤ min N ((k + 1) * steps N) := by omega
      have happ := List.range'_append 0 (k * steps N)
        (min N ((k + 1) * steps N) - k * steps N) 1
      simp only [Nat.one_mul, Nat.zero_add] at happ
      rw [h1]
      show List.range' 0 (k * steps N) ++ chunk N k = _
      unfold chunk
      rw [happ]
      congr 1
      omega

theorem chunks_flatten (N : Nat) : (chunks N).flatten = List.range N := by
  have h := flatten_chunks_prefix N (nt N)
  unfold chunks
  rw [h, min_eq_left (Nat.le_of_lt (num_lt_nt_mul_steps N))]
  exact (List.range_eq_range' N).symm

theorem chunkMatches_eq_filter_chunk (tm : Nat → Bool) (N i : Nat) :
    chunkMatches tm N i = (chunk N i).filter tm := rfl

theorem unsortedMapping_eq_filter (tm : Nat → Bool) (N : Nat) :
    unsortedMapping tm N = (List.range N).filter tm := by
  unfold unsortedMapping
  have h1 : (List.range (nt N)).map (chunkMatches tm N)
      = (chunks N).map (List.filter tm) := by
    unfold chunks
    rw [List.map_map]
    rfl
  rw [h1, ← List.filter_flatten, chunks_flatten]

theorem lev_sort_eq_true_iff (d : Nat → Int) (a b : Nat) :
    lev_sort d a b = true ↔ d a ≤ d b := by
  simp [lev_sort, sub_nonpos]

theorem lev_sort_trans (d : Nat → Int) :
    ∀ a b c, lev_sort d a b = true → lev_sort d b c = true →
      lev_sort d a c = true := by
  intro a b c hab hbc
  rw [lev_sort_eq_true_iff] at hab hbc ⊢
  exact le_trans hab hbc

theorem lev_sort_total (d : Nat → Int) :
    ∀ a b, (lev_sort d a b || lev_sort d b a) = true := by
  intro a b
  rw [Bool.or_eq_true, lev_sort_eq_true_iff, lev_sort_eq_true_iff]
  exact le_total (d a) (d b)

theorem refilterMapping_nosort (cfg : Config) (tm : Nat → Bool)
    (dist : Nat → Int) (N : Nat) (hsort : cfg.sort = false) :
    refilterMapping cfg tm dist false N = (List.range N).filter tm := by
  show (if cfg.sort then (unsortedMapping tm N).mergeSort (lev_sort dist)
    else unsortedMapping tm N) = _
  rw [hsort]
  simp [unsortedMapping_eq_filter]

theorem refilterMapping_sort (cfg : Config) (tm : Nat → Bool)
    (dist : Nat → Int) (N : Nat) (hsort : cfg.sort = true) :
    refilterMapping cfg tm dist false N
      = (unsortedMapping tm N).mergeSort (lev_sort dist) := by
  show (if cfg.sort then (unsortedMapping tm N).mergeSort (lev_sort dist)
    else unsortedMapping tm N) = _
  rw [hsort]
  simp

theorem refilterMapping_perm_filter (cfg : Config) (tm : Nat → Bool)
    (dist : Nat → Int) (N : Nat) :
    (refilterMapping cfg tm dist false N).Perm ((List.range N).filter tm) := by
  rcases Bool.eq_false_or_eq_true cfg.sort with h | h
  · rw [refilterMapping_sort cfg tm dist N h, ← unsortedMapping_eq_filter]
    exact List.mergeSort_perm _ _
  · rw [refilterMapping_nosort cfg tm dist N h]

/-- Claim C1: for every candidate set of size `N` and non-empty query, with
sorting disabled, the mapping of a filter pass holds exactly the candidate
indices `i < N` whose searchable text every token matches, each exactly
once, in strictly increasing order (`mapping[p] < mapping[p+1]`), and
`filtered_lines` equals the number of such indices. -/
theorem filter_pass_mapping_exact (cfg : Config) (tm : Nat → Bool)
    (dist : Nat → Int) (N : Nat) (hsort : cfg.sort = false) :
    (∀ i, i ∈ refilterMapping cfg tm dist false N ↔ (i < N ∧ tm i = true)) ∧
    List.Pairwise (· < ·) (refilterMapping cfg tm dist false N) ∧
    (∀ p (h : p + 1 < (refilterMapping cfg tm dist false N).length),
      (refilterMapping cfg tm dist false N).get ⟨p, Nat.lt_of_succ_lt h⟩ <
        (refilterMapping cfg tm dist false N).get ⟨p + 1, h⟩) ∧
    (refilterMapping cfg tm dist false N).Nodup ∧
    (refilterMapping cfg tm dist false N).length = (List.range N).countP tm := by
  have hm := refilterMapping_nosort cfg tm dist N hsort
  rw [hm]
  have hpw : List.Pairwise (· < ·) ((List.range N).filter tm) :=
    List.Pairwise.filter tm (List.pairwise_lt_range N)
  refine ⟨?_, hpw, ?_, ?_, ?_⟩
  · intro i
    simp [List.mem_filter, List.mem_range]
  · intro p h
    exact List.pairwise_iff_get.mp hpw ⟨p, Nat.lt_of_succ_lt h⟩ ⟨p + 1, h⟩
      (Nat.lt_succ_self p)
  · exact List.Nodup.filter tm (List.nodup_range N)
  · rw [← List.countP_eq_length_filter]

/-- Witness for C1: the claim instantiated at five candidates with the
even-index match predicate and sorting disabled. -/
theorem filter_pass_mapping_exact_witness :
    cfgPlain.sort = false ∧
    ((∀ i, i ∈ refilterMapping cfgPlain tmEven distZero false 5 ↔
        (i < 5 ∧ tmEven i = true)) ∧
      List.Pairwise (· < ·) (refilterMapping cfgPlain tmEven distZero false 5) ∧
      (∀ p (h : p + 1 < (refilterMapping cfgPlain tmEven distZero false 5).length),
        (refilterMapping cfgPlain tmEven distZero false 5).get
            ⟨p, Nat.lt_of_succ_lt h⟩ <
          (refilterMapping cfgPlain tmEven distZero false 5).get ⟨p + 1, h⟩) ∧
      (refilterMapping cfgPlain tmEven distZero false 5).Nodup ∧
      (refilterMapping cfgPlain tmEven distZero false 5).length
        = (List.range 5).countP tmEven) :=
  ⟨rfl, filter_pass_mapping_exact cfgPlain tmEven distZero 5 rfl⟩

/-- Claim C3: with an empty query a pass yields the identity mapping
`[0, ..., N-1]` with `filtered_lines = N`, for every configuration and
every distance table — in particular the sort step is skipped even when
sorting is enabled — and the distance table is not written at all. -/
theorem refilter_empty_query (cfg : Config) (tm : Nat → Bool)
    (dist : Nat → Int) (lev fuz dist0 : Nat → Int) (N : Nat) :
    refilterMapping cfg tm dist true N = List.range N ∧
    (refilterMapping cfg tm dist true N).length = N ∧
    distAfter cfg tm lev fuz true N dist0 = dist0 :=
  ⟨rfl, List.length_range N, rfl⟩

/-- Claim C4: for `N ≥ 1` the partitioner produces `max(1, N/500)` chunks
whose concatenation in dispatch order is exactly `[0, 1, ..., N-1]`: the
chunks are contiguous, non-overlapping, increasing index ranges covering
`[0, N)`, and chunk `i` is the work list of the one worker task built from
`states[i]` (view.c:748-764). -/
theorem partition_chunks_exact (N : Nat) (_hN : 1 ≤ N) :
    (chunks N).length = max 1 (N / 500) ∧ (chunks N).flatten = List.range N := by
  refine ⟨?_, chunks_flatten N⟩
  simp [chunks, nt]

/-- Witness for C4 at `N = 1234`: two chunks, `[0, 618)` and `[618, 1234)`,
covering the range. -/
theorem partition_chunks_exact_witness :
    1 ≤ 1234 ∧ ((chunks 1234).length = max 1 (1234 / 500) ∧
      (chunks 1234).flatten = List.range 1234) :=
  ⟨by decide, partition_chunks_exact 1234 (by decide)⟩

/-- Claim C10: during a pass with a non-empty query the distance table is
written only at absolute indices of matched candidates and only when
sorting is enabled — every other entry is left exactly as it was — and a
reload reallocates the table zero-filled (`g_malloc0_n`, view.c:713), as
does view creation (view.c:1322). -/
theorem distance_table_frame (cfg : Config) (tm : Nat → Bool)
    (lev fuz dist0 : Nat → Int) (N i : Nat)
    (hno : ¬(cfg.sort = true ∧ i < N ∧ tm i = true)) :
    distAfter cfg tm lev fuz false N dist0 i = dist0 i ∧
    (∀ numEntries s,
      (_rofi_view_reload_row numEntries s).distance = fun _ => 0) := by
  refine ⟨?_, fun numEntries s => rfl⟩
  show (if i < N ∧ tm i = true ∧ cfg.sort = true
    then passScore cfg lev fuz i else dist0 i) = dist0 i
  rw [if_neg]
  tauto

/-- Witness for C10: index 1 does not match `tmEven`, so a sorting fuzzy
pass over two candidates leaves its distance entry untouched, and a reload
zero-fills the table. -/
theorem distance_table_frame_witness :
    ¬(cfgFuzzySort.sort = true ∧ 1 < 2 ∧ tmEven 1 = true) ∧
    (distAfter cfgFuzzySort tmEven distZero fuzTwo false 2 distZero 1
        = distZero 1 ∧
      (∀ numEntries s,
        (_rofi_view_reload_row numEntries s).distance = fun _ => 0)) :=
  ⟨by decide, distance_table_frame cfgFuzzySort tmEven distZero fuzTwo
    distZero 2 1 (by decide)⟩

/-- Claim C2 (amended): with sorting enabled, the assembler stably sorts
the full compacted mapping with the distance table as key in ascending
order of the stored key in both modes — ascending distance for
edit-distance mode, and likewise ascending stored value for fuzzy mode,
since `lev_sort` compares raw table entries identically in both — with
ties preserving the original relative (pre-sort) order: the result is a
permutation of the unsorted mapping, is pairwise ascending in the key, and
any two equal-key candidates appear in their pre-sort relative order. -/
theorem sort_ascending_stable (cfg : Config) (tm : Nat → Bool)
    (dist : Nat → Int) (N : Nat) (hsort : cfg.sort = true) :
    (refilterMapping cfg tm dist false N).Perm (unsortedMapping tm N) ∧
    List.Pairwise (fun a b => dist a ≤ dist b)
      (refilterMapping cfg tm dist false N) ∧
    (∀ a b, dist a = dist b → [a, b].Sublist (unsortedMapping tm N) →
      [a, b].Sublist (refilterMapping cfg tm dist false N)) := by
  rw [refilterMapping_sort cfg tm dist N hsort]
  refine ⟨List.mergeSort_perm _ _, ?_, ?_⟩
  · have h := List.sorted_mergeSort (lev_sort_trans dist) (lev_sort_total dist)
      (unsortedMapping tm N)
    exact h.imp (fun hab => (lev_sort_eq_true_iff dist _ _).mp hab)
  · intro a b hab hsub
    apply List.sublist_mergeSort (lev_sort_trans dist) (lev_sort_total dist)
      ?_ hsub
    refine List.pairwise_cons.mpr ⟨?_, List.pairwise_singleton _ _⟩
    intro b' hb'
    rw [List.mem_singleton] at hb'
    subst hb'
    exact (lev_sort_eq_true_iff dist _ _).mpr (le_of_eq hab)

/-- Witness for C2 (amended): the sorting fuzzy configuration on two
candidates that both match, with the distance table the pass wrote. -/
theorem sort_ascending_stable_witness :
    cfgFuzzySort.sort = true ∧
    ((refilterMapping cfgFuzzySort tmAll distFuzzyCex false 2).Perm
        (unsortedMapping tmAll 2) ∧
      List.Pairwise (fun a b => distFuzzyCex a ≤ distFuzzyCex b)
        (refilterMapping cfgFuzzySort tmAll distFuzzyCex false 2) ∧
      (∀ a b, distFuzzyCex a = distFuzzyCex b →
        [a, b].Sublist (unsortedMapping tmAll 2) →
        [a, b].Sublist (refilterMapping cfgFuzzySort tmAll distFuzzyCex false 2))) :=
  ⟨rfl, sort_ascending_stable cfgFuzzySort tmAll distFuzzyCex 2 rfl⟩

/-- Claim C2 counterexample: with fuzzy matching and sorting enabled, on
the two candidates of `fuzTwo` (fuzzy scores 1 and 2, higher better) the
sorted mapping of the pass is not in descending score order.  Both
candidates appear in it, it is ascending in the stored key by `lev_sort`,
and the two scores differ, so pairwise-descending order is impossible:
`filter_elements` stores `rofi_scorer_fuzzy_evaluate`'s result without
negation (view.c:463) and `lev_sort` orders ascending regardless of
mode (view.c:136), so the best fuzzy match sorts last, not first. -/
theorem fuzzy_sort_descending_cex :
    ¬ List.Pairwise (fun a b => distFuzzyCex b ≤ distFuzzyCex a)
      (refilterMapping cfgFuzzySort tmAll distFuzzyCex false 2) := by
  intro hdesc
  have hdef : refilterMapping cfgFuzzySort tmAll distFuzzyCex false 2
      = (unsortedMapping tmAll 2).mergeSort (lev_sort distFuzzyCex) := rfl
  have hperm : (refilterMapping cfgFuzzySort tmAll distFuzzyCex false 2).Perm
      (unsortedMapping tmAll 2) := by
    rw [hdef]; exact List.mergeSort_perm _ _
  have hasc : List.Pairwise
      (fun a b => distFuzzyCex a ≤ distFuzzyCex b)
      (refilterMapping cfgFuzzySort tmAll distFuzzyCex false 2) := by
    rw [hdef]
    exact (List.sorted_mergeSort (lev_sort_trans distFuzzyCex)
      (lev_sort_total distFuzzyCex) (unsortedMapping tmAll 2)).imp
      (fun hab => (lev_sort_eq_true_iff distFuzzyCex _ _).mp hab)
  have hsymm : Symmetric (fun a b : Nat =>
      (distFuzzyCex a ≤ distFuzzyCex b) ∧ (distFuzzyCex b ≤ distFuzzyCex a)) :=
    fun a b hab => ⟨hab.2, hab.1⟩
  have h0 : (0 : Nat) ∈ refilterMapping cfgFuzzySort tmAll distFuzzyCex false 2 := by
    rw [hperm.mem_iff]; decide
  have h1 : (1 : Nat) ∈ refilterMapping cfgFuzzySort tmAll distFuzzyCex false 2 := by
    rw [hperm.mem_iff]; decide
  have hboth := List.Pairwise.forall hsymm (hasc.and hdesc) h0 h1 (by decide)
  have heq : distFuzzyCex 0 = distFuzzyCex 1 := le_antisymm hboth.1 hboth.2
  revert heq
  decide

theorem listview_nav_down_quit (s : RofiViewState) :
    (listview_nav_down s).quit = s.quit := by
  unfold listview_nav_down
  split <;> rfl

theorem get_zero_of_singleton {l : List Nat} {i : Nat} (hi : l = [i])
    (f : Nat → Nat) :
    (if h : 0 < l.length then l.get ⟨0, h⟩ else f 0) = i := by
  subst hi
  rfl

/-- Claim C5: after any completed filter pass, if auto-select is enabled
and exactly one candidate survived while the total candidate count exceeds
one, `rofi_view_refilter` itself commits (view.c:797-801): `quit` is set,
`retv = MENU_OK`, and `selected_line` carries the single surviving
candidate's index — for a non-empty query, the unique matching index. -/
theorem auto_select_single_match (cfg : Config) (tm : Nat → Bool)
    (lev fuz : Nat → Int) (queryEmpty : Bool) (s : RofiViewState)
    (hauto : cfg.auto_select = true)
    (hone : (refilterMapping cfg tm
        (distAfter cfg tm lev fuz queryEmpty s.num_lines s.distance)
        queryEmpty s.num_lines).length = 1)
    (hmany : 1 < s.num_lines) :
    (rofi_view_refilter cfg tm lev fuz queryEmpty s).quit = true ∧
    (rofi_view_refilter cfg tm lev fuz queryEmpty s).retv = .MENU_OK ∧
    ∃ i, refilterMapping cfg tm
          (distAfter cfg tm lev fuz queryEmpty s.num_lines s.distance)
          queryEmpty s.num_lines = [i] ∧
        (rofi_view_refilter cfg tm lev fuz queryEmpty s).selected_line = i ∧
        (queryEmpty = false → i < s.num_lines ∧ tm i = true ∧
          ∀ j, j < s.num_lines → tm j = true → j = i) := by
  obtain ⟨i, hi⟩ := List.length_eq_one.mp hone
  have hcond : cfg.auto_select = true ∧
      (refilterApply cfg tm lev fuz queryEmpty s).filtered_lines = 1 ∧
      1 < (refilterApply cfg tm lev fuz queryEmpty s).num_lines :=
    ⟨hauto, hone, hmany⟩
  have hres : rofi_view_refilter cfg tm lev fuz queryEmpty s =
      { refilterApply cfg tm lev fuz queryEmpty s with
        selected_line := (refilterApply cfg tm lev fuz queryEmpty s).line_map
          (refilterApply cfg tm lev fuz queryEmpty s).selected,
        retv := .MENU_OK, quit := true } := by
    show (if cfg.auto_select = true ∧
        (refilterApply cfg tm lev fuz queryEmpty s).filtered_lines = 1 ∧
        1 < (refilterApply cfg tm lev fuz queryEmpty s).num_lines
      then _ else _) = _
    rw [if_pos hcond]
  have hsel : (refilterApply cfg tm lev fuz queryEmpty s).selected = 0 := by
    show listview_set_num_elements s.selected
      (refilterMapping cfg tm
        (distAfter cfg tm lev fuz queryEmpty s.num_lines s.distance)
        queryEmpty s.num_lines).length = 0
    rw [hone]
    unfold listview_set_num_elements
    split <;> omega
  have hlm : (refilterApply cfg tm lev fuz queryEmpty s).line_map 0 = i :=
    get_zero_of_singleton hi s.line_map
  refine ⟨by rw [hres], by rw [hres], i, hi, by rw [hres]; simp [hsel, hlm], ?_⟩
  intro hqe
  subst hqe
  have hperm := refilterMapping_perm_filter cfg tm
    (distAfter cfg tm lev fuz false s.num_lines s.distance) s.num_lines
  rw [hi] at hperm
  have hfil : (List.range s.num_lines).filter tm = [i] :=
    List.perm_singleton.mp hperm.symm
  have hiin : i ∈ (List.range s.num_lines).filter tm := by
    rw [hfil]; exact List.mem_singleton_self i
  rw [List.mem_filter, List.mem_range] at hiin
  refine ⟨hiin.1, hiin.2, ?_⟩
  intro j hj htj
  have : j ∈ (List.range s.num_lines).filter tm := by
    rw [List.mem_filter, List.mem_range]; exact ⟨hj, htj⟩
  rw [hfil, List.mem_singleton] at this
  exact this

/-- Witness for C5: three candidates, only candidate 1 matches, auto-select
enabled, sorting disabled — the pass commits with `selected_line = 1`. -/
theorem auto_select_single_match_witness :
    cfgAuto.auto_select = true ∧
    (refilterMapping cfgAuto tmOnly1
        (distAfter cfgAuto tmOnly1 distZero distZero false stateN3.num_lines
          stateN3.distance)
        false stateN3.num_lines).length = 1 ∧
    1 < stateN3.num_lines ∧
    ((rofi_view_refilter cfgAuto tmOnly1 distZero distZero false stateN3).quit
        = true ∧
      (rofi_view_refilter cfgAuto tmOnly1 distZero distZero false stateN3).retv
        = .MENU_OK ∧
      ∃ i, refilterMapping cfgAuto tmOnly1
            (distAfter cfgAuto tmOnly1 distZero distZero false
              stateN3.num_lines stateN3.distance)
            false stateN3.num_lines = [i] ∧
          (rofi_view_refilter cfgAuto tmOnly1 distZero distZero false
            stateN3).selected_line = i ∧
          (false = false → i < stateN3.num_lines ∧ tmOnly1 i = true ∧
            ∀ j, j < stateN3.num_lines → tmOnly1 j = true → j = i)) :=
  ⟨rfl, by decide, by decide,
    auto_select_single_match cfgAuto tmOnly1 distZero distZero false stateN3
      rfl (by decide) (by decide)⟩

/-- Claim C6: the Commit action `ACCEPT_ENTRY` (view.c:1006-1022) yields
the terminal `MENU_OK` outcome with `selected_line = line_map[selected]`
when the cursor is a valid position, and otherwise the terminal
`MENU_CUSTOM_INPUT` outcome with `selected_line = UINT32_MAX` (no
candidate). -/
theorem accept_entry_outcome (s : RofiViewState) :
    (s.selected < s.filtered_lines →
      rofi_view_trigger_action s .ACCEPT_ENTRY =
        ({ s with
            selected_line := s.line_map s.selected,
            retv := .MENU_OK, quit := true }, true)) ∧
    (s.filtered_lines ≤ s.selected →
      rofi_view_trigger_action s .ACCEPT_ENTRY =
        ({ s with
            selected_line := UINT32_MAX,
            retv := .MENU_CUSTOM_INPUT, quit := true }, true)) := by
  constructor
  · intro h
    simp only [rofi_view_trigger_action]
    rw [if_pos h]
  · intro h
    simp only [rofi_view_trigger_action]
    rw [if_neg (Nat.not_lt.mpr h)]

/-- Witness for C6: both branches at concrete states — a valid cursor on a
one-line result set, and a cursor on an empty result set. -/
theorem accept_entry_outcome_witness :
    (stateOne.selected < stateOne.filtered_lines ∧
      rofi_view_trigger_action stateOne .ACCEPT_ENTRY =
        ({ stateOne with
            selected_line := stateOne.line_map stateOne.selected,
            retv := .MENU_OK, quit := true }, true)) ∧
    (baseState.filtered_lines ≤ baseState.selected ∧
      rofi_view_trigger_action baseState .ACCEPT_ENTRY =
        ({ baseState with
            selected_line := UINT32_MAX,
            retv := .MENU_CUSTOM_INPUT, quit := true }, true)) :=
  ⟨⟨by decide, (accept_entry_outcome stateOne).1 (by decide)⟩,
    ⟨by decide, (accept_entry_outcome baseState).2 (by decide)⟩⟩

/-- Claim C7 (amended): Tab (view.c:545-564) behaves as Commit when exactly
one filtered result remains; yields terminal `MENU_NEXT` with
`selected_line = 0` when the result set is empty and the recorded
`prev_action` equals Tab — a flag set by any earlier Tab that did not hit
the single-result branch, and cleared by no other action; and otherwise
moves the cursor down non-terminally and records Tab in `prev_action`. -/
theorem row_tab_behavior (s : RofiViewState) :
    (s.filtered_lines = 1 → s.selected < s.filtered_lines →
      ((rofi_view_trigger_action s .ROW_TAB).1.retv = .MENU_OK ∧
        (rofi_view_trigger_action s .ROW_TAB).1.selected_line
          = s.line_map 0 ∧
        (rofi_view_trigger_action s .ROW_TAB).1.quit = true)) ∧
    (s.filtered_lines = 0 → s.prev_action = .ROW_TAB →
      ((rofi_view_trigger_action s .ROW_TAB).1.retv = .MENU_NEXT ∧
        (rofi_view_trigger_action s .ROW_TAB).1.selected_line = 0 ∧
        (rofi_view_trigger_action s .ROW_TAB).1.quit = true)) ∧
    (s.filtered_lines ≠ 1 → ¬(s.filtered_lines = 0 ∧ s.prev_action = .ROW_TAB) →
      ((rofi_view_trigger_action s .ROW_TAB).1
          = { listview_nav_down s with prev_action := .ROW_TAB } ∧
        (rofi_view_trigger_action s .ROW_TAB).1.quit = s.quit)) ∧
    (∀ a, a ≠ KeyBindingAction.ROW_TAB →
      (rofi_view_trigger_action s a).1.prev_action = s.prev_action) := by
  refine ⟨?_, ?_, ?_, ?_⟩
  · intro h1 hsel
    have hsel0 : s.selected = 0 := by omega
    simp only [rofi_view_trigger_action, rofi_view_nav_row_tab]
    rw [if_pos h1]
    exact ⟨rfl, by rw [hsel0], rfl⟩
  · intro h0 hprev
    simp only [rofi_view_trigger_action, rofi_view_nav_row_tab]
    rw [if_neg (by omega), if_pos ⟨h0, hprev⟩]
    exact ⟨rfl, rfl, rfl⟩
  · intro h1 h2
    simp only [rofi_view_trigger_action, rofi_view_nav_row_tab]
    rw [if_neg h1, if_neg h2]
    exact ⟨rfl, by
      show ({ listview_nav_down s with prev_action := .ROW_TAB } :
        RofiViewState).quit = s.quit
      rw [show ({ listview_nav_down s with prev_action := .ROW_TAB } :
        RofiViewState).quit = (listview_nav_down s).quit from rfl]
      exact listview_nav_down_quit s⟩
  · intro a ha
    cases a with
    | ROW_TAB => exact absurd rfl ha
    | PASTE_PRIMARY => rfl
    | ACCEPT_ENTRY =>
      simp only [rofi_view_trigger_action]
      split <;> rfl
    | DELETE_ENTRY =>
      simp only [rofi_view_trigger_action]
      split <;> rfl
    | ROW_UP =>
      simp only [rofi_view_trigger_action, listview_nav_up]
      split <;> rfl
    | ROW_DOWN =>
      simp only [rofi_view_trigger_action, listview_nav_down]
      split <;> rfl
    | CANCEL => rfl

/-- Witness for C7 (amended): the single-result branch on `stateOne`, the
double-tab branch on `stateTabPrev`, and `prev_action` preservation by
Cancel on `baseState`. -/
theorem row_tab_behavior_witness :
    (stateOne.filtered_lines = 1 ∧ stateOne.selected < stateOne.filtered_lines ∧
      ((rofi_view_trigger_action stateOne .ROW_TAB).1.retv = .MENU_OK ∧
        (rofi_view_trigger_action stateOne .ROW_TAB).1.selected_line
          = stateOne.line_map 0 ∧
        (rofi_view_trigger_action stateOne .ROW_TAB).1.quit = true)) ∧
    (stateTabPrev.filtered_lines = 0 ∧
      stateTabPrev.prev_action = .ROW_TAB ∧
      ((rofi_view_trigger_action stateTabPrev .ROW_TAB).1.retv = .MENU_NEXT ∧
        (rofi_view_trigger_action stateTabPrev .ROW_TAB).1.selected_line = 0 ∧
        (rofi_view_trigger_action stateTabPrev .ROW_TAB).1.quit = true)) ∧
    (rofi_view_trigger_action baseState .CANCEL).1.prev_action
      = baseState.prev_action :=
  ⟨⟨by decide, by decide, (row_tab_behavior stateOne).1 (by decide) (by decide)⟩,
    ⟨by decide, by decide,
      (row_tab_behavior stateTabPrev).2.1 (by decide) (by decide)⟩,
    (row_tab_behavior baseState).2.2.2 .CANCEL (by decide)⟩

/-- Claim C7 counterexample: starting from `baseState` (empty result set,
zero-initialized `prev_action`), the three-action run Tab, Up, Tab has a
non-terminal second step whose action is Up, yet the final Tab yields the
terminal `MENU_NEXT` outcome with `selected_line = 0` on the still-empty
result set.  The double-tab escape thus fires although the immediately
preceding action was Up, not Tab: `prev_action` records only the last Tab
(view.c:563) and no other action ever clears it. -/
theorem row_tab_prev_action_cex :
    (rofi_view_trigger_action baseState .ROW_TAB).1.quit = false ∧
    (rofi_view_trigger_action
      (rofi_view_trigger_action baseState .ROW_TAB).1 .ROW_UP).1.quit = false ∧
    (rofi_view_trigger_action (rofi_view_trigger_action
      (rofi_view_trigger_action baseState .ROW_TAB).1 .ROW_UP).1
        .ROW_TAB).1.quit = true ∧
    (rofi_view_trigger_action (rofi_view_trigger_action
      (rofi_view_trigger_action baseState .ROW_TAB).1 .ROW_UP).1
        .ROW_TAB).1.retv = .MENU_NEXT ∧
    (rofi_view_trigger_action (rofi_view_trigger_action
      (rofi_view_trigger_action baseState .ROW_TAB).1 .ROW_UP).1
        .ROW_TAB).1.selected_line = 0 ∧
    (rofi_view_trigger_action
      (rofi_view_trigger_action baseState .ROW_TAB).1 .ROW_UP).1.filtered_lines
      = 0 := by
  decide

/-- Claim C8: the Delete-entry action (view.c:862-874) yields the terminal
`MENU_ENTRY_DELETE` outcome with `selected_line = line_map[selected]` when
the cursor is a valid position; an out-of-range cursor is rejected with
`ret = FALSE` and a completely unchanged state. -/
theorem delete_entry_outcome (s : RofiViewState) :
    (s.selected < s.filtered_lines →
      rofi_view_trigger_action s .DELETE_ENTRY =
        ({ s with
            selected_line := s.line_map s.selected,
            retv := .MENU_ENTRY_DELETE, quit := true }, true)) ∧
    (s.filtered_lines ≤ s.selected →
      rofi_view_trigger_action s .DELETE_ENTRY = (s, false)) := by
  constructor
  · intro h
    simp only [rofi_view_trigger_action]
    rw [if_pos h]
  · intro h
    simp only [rofi_view_trigger_action]
    rw [if_neg (Nat.not_lt.mpr h)]

/-- Witness for C8: a valid cursor deletes the mapped candidate; a cursor
past the filtered set is rejected with the state returned untouched. -/
theorem delete_entry_outcome_witness :
    (stateOne.selected < stateOne.filtered_lines ∧
      rofi_view_trigger_action stateOne .DELETE_ENTRY =
        ({ stateOne with
            selected_line := stateOne.line_map stateOne.selected,
            retv := .MENU_ENTRY_DELETE, quit := true }, true)) ∧
    (stateBig.filtered_lines ≤ stateBig.selected ∧
      rofi_view_trigger_action stateBig .DELETE_ENTRY = (stateBig, false)) :=
  ⟨⟨by decide, (delete_entry_outcome stateOne).1 (by decide)⟩,
    ⟨by decide, (delete_entry_outcome stateBig).2 (by decide)⟩⟩

/-- Claim C9: `rofi_view_get_next_position` (view.c:383-391) returns
`line_map[selected + 1]` whenever `selected + 1 < num_lines` — including
when `selected + 1 >= filtered_lines`, where the slot read lies beyond the
current filtered result set — and returns the stored `selected_line`
unchanged only when `selected + 1 >= num_lines`. -/
theorem get_next_position_reads_raw (s : RofiViewState) :
    (s.selected + 1 < s.num_lines →
      rofi_view_get_next_position s = s.line_map (s.selected + 1)) ∧
    (s.filtered_lines ≤ s.selected + 1 → s.selected + 1 < s.num_lines →
      rofi_view_get_next_position s = s.line_map (s.selected + 1)) ∧
    (s.num_lines ≤ s.selected + 1 →
      rofi_view_get_next_position s = s.selected_line) := by
  refine ⟨?_, ?_, ?_⟩
  · intro h
    unfold rofi_view_get_next_position
    rw [if_pos h]
  · intro _ h
    unfold rofi_view_get_next_position
    rw [if_pos h]
  · intro h
    unfold rofi_view_get_next_position
    rw [if_neg (Nat.not_lt.mpr h)]

/-- Witness for C9: on `baseState` the read at `selected + 1 = 1` lies past
`filtered_lines = 0` but below `num_lines = 5` and still comes from
`line_map`; on `stateBig` the cursor is past `num_lines`, so the stored
`selected_line` comes back. -/
theorem get_next_position_reads_raw_witness :
    (baseState.selected + 1 < baseState.num_lines ∧
      rofi_view_get_next_position baseState
        = baseState.line_map (baseState.selected + 1)) ∧
    (baseState.filtered_lines ≤ baseState.selected + 1 ∧
      rofi_view_get_next_position baseState
        = baseState.line_map (baseState.selected + 1)) ∧
    (stateBig.num_lines ≤ stateBig.selected + 1 ∧
      rofi_view_get_next_position stateBig = stateBig.selected_line) :=
  ⟨⟨by decide, (get_next_position_reads_raw baseState).1 (by decide)⟩,
    ⟨by decide,
      (get_next_position_reads_raw baseState).2.1 (by decide) (by decide)⟩,
    ⟨by decide, (get_next_position_reads_raw stateBig).2.2 (by decide)⟩⟩

end Rofi
